import Mathlib

set_option autoImplicit false

namespace ModernWMS

/-! # Association-list model of Python dicts

The token cache (`src/ModernWMS_PY/app/cache.py`) keeps two Python dicts.
We model each dict as an association list with no duplicate keys; `del` on a
key that is present is modelled by `aerase`, and dict assignment by `ainsert`.
-/

section AssocList

variable {α β : Type} [DecidableEq α]

/-- First value bound to key `k`, like `dict.get(k)`. -/
def alookup : List (α × β) → α → Option β
  | [], _ => none
  | (k', v) :: rest, k => if k' = k then some v else alookup rest k

/-- Remove every binding of key `k`; on a no-duplicate-keys list this is the
single deletion performed by Python `del d[k]`. -/
def aerase : List (α × β) → α → List (α × β)
  | [], _ => []
  | (k', v) :: rest, k => if k' = k then aerase rest k else (k', v) :: aerase rest k

/-- Dict assignment `d[k] = v`: any old binding of `k` goes away and `k ↦ v`
is bound. -/
def ainsert (l : List (α × β)) (k : α) (v : β) : List (α × β) :=
  aerase l k ++ [(k, v)]

/-- The keys of an association list. -/
def akeys (l : List (α × β)) : List α :=
  l.map Prod.fst

end AssocList

/-! # Data model of `TokenCache` (src/ModernWMS_PY/app/cache.py)

Timestamps are integers (seconds); `datetime.now(timezone.utc)` becomes an
explicit `now : Int` parameter threaded into each operation, and a
`timedelta` becomes an `Int` number of seconds (negative deltas are allowed,
as in Python).  The `metadata` sub-dict of a refresh record only ever stores
`created_at`, which no operation reads, so it is not modelled.
-/

/-- One value of `TokenCache._refresh_tokens`: per-user record
`{"refresh_token": str, "expires_at": datetime}`. -/
structure RefreshRecord where
  refresh_token : String
  expires_at : Int
deriving DecidableEq, Repr

/-- One value of `TokenCache._token_lookup`: reverse-lookup entry
`{"user_id": int, "expires_at": datetime}`. -/
structure LookupEntry where
  user_id : Int
  expires_at : Int
deriving DecidableEq, Repr

/-- The two dicts of `TokenCache`.  The mutex serializes every public
operation, so each operation is modelled as a pure state transformer. -/
structure TokenCache where
  refresh_tokens : List (Int × RefreshRecord)
  token_lookup : List (String × LookupEntry)
deriving DecidableEq, Repr

/-- Model of `TokenCache.__init__`: both dicts empty. -/
def emptyCache : TokenCache :=
  { refresh_tokens := [], token_lookup := [] }

/-- Model of `TokenCache._invalidate_user_tokens(user_id)`.  When the user
has a record, Python does `del self._token_lookup[token]` unguarded: if the
record's token is not a key of the lookup dict (reachable after
cross-principal token aliasing), that `del` raises `KeyError` before either
dict is mutated.  `none` models the raise, with both dicts unchanged. -/
def invalidate_user_tokens (c : TokenCache) (user_id : Int) :
    Option (Bool × TokenCache) :=
  match alookup c.refresh_tokens user_id with
  | none => some (false, c)
  | some r =>
      match alookup c.token_lookup r.refresh_token with
      | none => none
      | some _ =>
          some (true,
            { refresh_tokens := aerase c.refresh_tokens user_id,
              token_lookup := aerase c.token_lookup r.refresh_token })

/-- Model of `TokenCache._invalidate_token(token)`: drop the lookup entry and, if the
user it names still has a record, that record too. -/
def invalidate_token (c : TokenCache) (token : String) : Bool × TokenCache :=
  match alookup c.token_lookup token with
  | none => (false, c)
  | some e =>
      (true,
       { refresh_tokens := aerase c.refresh_tokens e.user_id,
         token_lookup := aerase c.token_lookup token })

/-- Model of `TokenCache.set_token(user_id, token, expires_delta)`: compute
`expires_at = now + expires_delta`, invalidate any existing token of the
user, then store the new record and its lookup entry.  A `KeyError` from
`_invalidate_user_tokens` (`none`) propagates out with the store unchanged:
the raise happens before any mutation. -/
def set_token (now : Int) (c : TokenCache) (user_id : Int) (token : String)
    (expires_delta : Int) : Option TokenCache :=
  let expires_at := now + expires_delta
  match invalidate_user_tokens c user_id with
  | none => none
  | some (_, c1) =>
      some
        { refresh_tokens :=
            ainsert c1.refresh_tokens user_id
              { refresh_token := token, expires_at := expires_at },
          token_lookup :=
            ainsert c1.token_lookup token
              { user_id := user_id, expires_at := expires_at } }

/-- Model of `TokenCache.get_user_id_by_token(token)`: lookup; on an expired entry,
self-heal by `_invalidate_token` and answer `None`. -/
def get_user_id_by_token (now : Int) (c : TokenCache) (token : String) :
    Option Int × TokenCache :=
  match alookup c.token_lookup token with
  | none => (none, c)
  | some e =>
      if e.expires_at < now then (none, (invalidate_token c token).2)
      else (some e.user_id, c)

/-- Model of `TokenCache.delete_token(user_id)`; `none` is the propagated
`KeyError` of `_invalidate_user_tokens`, with the store unchanged. -/
def delete_token (c : TokenCache) (user_id : Int) : Option (Bool × TokenCache) :=
  invalidate_user_tokens c user_id

/-- Model of `TokenCache.cleanup_expired_tokens()`: first pass removes every expired
lookup entry (and its user record) through `_invalidate_token`, counting one
per token; second pass deletes and counts any remaining user record whose
`expires_at` has passed. -/
def cleanup_expired_tokens (now : Int) (c : TokenCache) : Nat × TokenCache :=
  let expired_tokens :=
    akeys (c.token_lookup.filter (fun p => p.2.expires_at < now))
  let c1 := expired_tokens.foldl (fun acc t => (invalidate_token acc t).2) c
  let expired_users :=
    akeys (c1.refresh_tokens.filter (fun p => p.2.expires_at < now))
  let c2 : TokenCache :=
    { refresh_tokens := expired_users.foldl (fun l u => aerase l u) c1.refresh_tokens,
      token_lookup := c1.token_lookup }
  (expired_tokens.length + expired_users.length, c2)

/-! # Codec boundary and principal lookup

`jose.jwt.decode` (signature, `exp`, `iss`, `aud` verification) is the Token
Codec collaborator: each endpoint model receives the decode outcome of the
presented token as `Option Payload`, `none` standing for a raised `JWTError`.
The decoded claim dict is modelled by the fields the core reads: `type`,
`sub` (each `Option`al, `payload.get` style) and `scopes` (`payload.get
("scopes", [])` style).

The principal lookup deserves care, because the source's query expressions
are broken: `models.User` defines neither an `id` column (its key is
`user_id`) nor an `is_active` column (`BaseMixin` has `is_valid`), yet
security.py:151-152, auth.py:41 and auth.py:124-125 all evaluate
`models.User.id` / `models.User.is_active`, so each of those expressions
raises `AttributeError` on every execution.  Two models are therefore kept:

* `get_current_user` and `refresh_endpoint` take the spec's intended
  collaborator `find_active_principal : Int → Option User` (`none` covering
  absent/inactive/deleted) as a parameter.  They are used only for claims
  whose verified outcomes either precede the query or hold for *every*
  collaborator, the raising one included.
* `get_current_user_source`, `refresh_endpoint_source` and `login` model the
  code as written, with the `AttributeError` at the query: unhandled in
  `get_current_user` and `login`, swallowed by `except Exception` in the
  refresh endpoint.
-/

/-- Decoded JWT claim set, restricted to the claims the core reads. -/
structure Payload where
  type : Option String
  sub : Option String
  scopes : List String
deriving DecidableEq, Repr

/-- The fields of `models.User` the auth layer reads. -/
structure User where
  user_id : Int
  password : String
  user_role : String
deriving DecidableEq, Repr

/-- Characters Python's `int()` strips around a numeral (the ASCII part of
`str.strip()`'s whitespace). -/
def isPySpace (c : Char) : Bool :=
  c = ' ' ∨ c = '\t' ∨ c = '\n' ∨ c = '\r' ∨ c = '\x0b' ∨ c = '\x0c'

/-- Value of a digit run after its first digit, with Python's underscore
grouping: an underscore must sit between two digits. -/
def digitsRest : Nat → List Char → Option Nat
  | acc, [] => some acc
  | acc, c :: rest =>
      if c.isDigit then digitsRest (acc * 10 + (c.toNat - 48)) rest
      else if c = '_' then
        match rest with
        | [] => none
        | d :: rest' =>
            if d.isDigit then digitsRest (acc * 10 + (d.toNat - 48)) rest'
            else none
      else none

/-- Digit-string value, `none` when empty, when a non-digit appears, or when
an underscore is not between two digits. -/
def digitsVal : List Char → Option Nat
  | [] => none
  | c :: rest => if c.isDigit then digitsRest (c.toNat - 48) rest else none

/-- Python `int(s)`: surrounding whitespace stripped, then an optional sign
followed by decimal digits with optional underscore grouping; `none` models
a raised `ValueError`.  Non-ASCII decimal digits and non-ASCII whitespace,
which Python also accepts, are not modelled: every string the repository
itself builds or compares is ASCII. -/
def pyInt (s : String) : Option Int :=
  match (s.data.dropWhile isPySpace).reverse.dropWhile isPySpace |>.reverse with
  | '-' :: rest => (digitsVal rest).map (fun n => -(n : Int))
  | '+' :: rest => (digitsVal rest).map (fun n => (n : Int))
  | cs => (digitsVal cs).map (fun n => (n : Int))

/-- Python `str.split(":")` on the character list: always at least one
group, empty groups kept (`""` → `[""]`, `":"` → `["", ""]`). -/
def splitColon : List Char → List (List Char)
  | [] => [[]]
  | c :: rest =>
    if c = ':' then [] :: splitColon rest
    else
      match splitColon rest with
      | [] => [[c]]
      | g :: gs => (c :: g) :: gs

/-- Model of `payload.get("sub", default).split(":")[-1]`. -/
def subSuffix (sub : Option String) (default : String) : String :=
  ⟨(splitColon (sub.getD default).data).getLastD []⟩

/-- Outcome of `TokenCache.verify_token`: a returned value, or the
`ValueError` from `int()` that its `except JWTError` clause does not catch. -/
inductive VerifyOutcome where
  | ok (payload : Option Payload)
  | exn
deriving DecidableEq, Repr

/-- Model of `TokenCache.verify_token(token)` given the codec decode outcome of
`token`.  A decode failure is caught and returned as `None`.  For a payload
of type `refresh`, the cache cross-check runs: `not user_id` is Python
falsiness, rejecting both `None` and the integer `0`; when `user_id` is
truthy, `int(payload.get("sub", ":").split(":")[-1])` is compared, raising
out of the method if the suffix is not an integer literal. -/
def verify_token (now : Int) (c : TokenCache) (token : String)
    (decoded : Option Payload) : VerifyOutcome × TokenCache :=
  match decoded with
  | none => (.ok none, c)
  | some payload =>
      if payload.type = some "refresh" then
        let r := get_user_id_by_token now c token
        match r.1 with
        | none => (.ok none, r.2)
        | some user_id =>
            if user_id = 0 then (.ok none, r.2)
            else
              match pyInt (subSuffix payload.sub ":") with
              | none => (.exn, r.2)
              | some sub_id =>
                  if user_id ≠ sub_id then (.ok none, r.2)
                  else (.ok (some payload), r.2)
      else (.ok (some payload), c)

/-- Role → scopes, as computed identically in `login` and `refresh_token`:
start from `["user"]`, extend with `["admin", "manager"]` for role `admin`,
append `"manager"` for role `manager`. -/
def deriveScopes (user_role : String) : List String :=
  if user_role = "admin" then ["user", "admin", "manager"]
  else if user_role = "manager" then ["user", "manager"]
  else ["user"]

/-- Result of the `refresh_token` endpoint: `schemas.result_success` carrying
the newly minted access token (represented by the subject id and scopes it
is minted with, plus the returned, un-rotated refresh token), or
`schemas.result_error(msg, code)`. -/
inductive RefreshResult where
  | success (user_id : Int) (scopes : List String) (refresh_token : String)
  | errorResult (msg : String) (code : Nat)
deriving DecidableEq, Repr

/-- The `refresh_token` endpoint (src/ModernWMS_PY/app/routers/auth.py),
parametric in the intended principal collaborator.  The whole body sits in
`try ... except Exception`, so the `ValueError` escaping `verify_token` (or
the endpoint's own `int()`) becomes the `"Invalid refresh token"` error
result.  In the source, the collaborator step raises `AttributeError`
(caught by the same `except Exception`; see `refresh_endpoint_source`), so
theorems stated here for every `find_active_principal` — in particular that
every path up to the store cross-check rejects identically — cover the code
as written, while success and `"User not found"` describe the lookup's
intent. -/
def refresh_endpoint (now : Int) (c : TokenCache) (token : String)
    (decoded : Option Payload) (find_active_principal : Int → Option User) :
    RefreshResult × TokenCache :=
  match verify_token now c token decoded with
  | (.exn, c') => (.errorResult "Invalid refresh token" 400, c')
  | (.ok payload?, c') =>
      match payload? with
      | none => (.errorResult "Invalid refresh token" 400, c')
      | some payload =>
          if payload.type ≠ some "refresh" then
            (.errorResult "Invalid refresh token" 400, c')
          else
            match pyInt (subSuffix payload.sub ":") with
            | none => (.errorResult "Invalid refresh token" 400, c')
            | some user_id =>
                if user_id = 0 then
                  (.errorResult "Invalid token format" 400, c')
                else
                  match find_active_principal user_id with
                  | none => (.errorResult "User not found" 404, c')
                  | some user =>
                      (.success user.user_id (deriveScopes user.user_role) token, c')

/-- Outcome of `get_current_user` (src/ModernWMS_PY/app/security.py): the
authenticated user, a raised `HTTPException` (status code and detail — a
structured response in FastAPI), or an exception that neither the
`except (JWTError, ValidationError)` clause nor any caller catches. -/
inductive AuthOutcome where
  | ok (user : User)
  | httpError (code : Nat) (detail : String)
  | unhandled
deriving DecidableEq, Repr

/-- Model of `get_current_user(security_scopes, token)` given the codec
decode outcome of the bearer token, parametric in the intended principal
collaborator.  Order as in the source: decode (`JWTError` → 401),
`int(payload.get("sub", "").split(":")[-1])` (`ValueError` is not caught →
`unhandled`), falsy-id check (401), token-type check (`!= "access"` → 403
"Invalid token type"), principal lookup (absent → 401), then the required
scopes are checked one by one against the `scopes` claim (missing → 403
"Not enough permissions").  In the source the lookup step raises
`AttributeError` (see `get_current_user_source`), so the `.ok` and scope-403
outcomes here are the intent of the lookup, not reachable behaviour of the
code as written; theorems about outcomes up to the type check hold for every
collaborator. -/
def get_current_user (decoded : Option Payload)
    (find_active_principal : Int → Option User)
    (required_scopes : List String) : AuthOutcome :=
  match decoded with
  | none => .httpError 401 "Could not validate credentials"
  | some payload =>
      match pyInt (subSuffix payload.sub "") with
      | none => .unhandled
      | some user_id =>
          if user_id = 0 then .httpError 401 "Could not validate credentials"
          else if payload.type.getD "access" ≠ "access" then
            .httpError 403 "Invalid token type"
          else
            match find_active_principal user_id with
            | none => .httpError 401 "Could not validate credentials"
            | some user =>
                if required_scopes.all (fun s => payload.scopes.contains s) then
                  .ok user
                else .httpError 403 "Not enough permissions"

/-- Result of the `login` endpoint: success carries the principal id, the
scopes minted into the access token and the refresh token registered in the
cache. -/
inductive LoginResult where
  | success (user_id : Int) (scopes : List String) (refresh_token : String)
  | errorResult (msg : String) (code : Nat)
deriving DecidableEq, Repr

/-- The `login` endpoint as the source executes it.  Its first statement,
the user query at auth.py:35-44, evaluates `models.User.is_active`, an
attribute `models.User` does not define, and raises `AttributeError` before
any credential check; no handler catches it.  `none` models that unhandled
fault; neither token cache nor anything else is ever touched, so the two
`"Incorrect username or password"` branches and the success path at
auth.py:46-95 are dead code. -/
def login (_now : Int) (_c : TokenCache) (_username _password : String) :
    Option (LoginResult × TokenCache) :=
  none

/-- The `get_current_user` dependency as the source executes it: identical
to `get_current_user` up to the token-type check, after which the query at
security.py:150-154 evaluates `models.User.id` and `models.User.is_active`,
neither of which exists, raising an `AttributeError` that
`except (JWTError, ValidationError)` does not catch — so every decodable
access-typed token with a parseable nonzero subject ends `unhandled`, and
the principal check and scope loop are dead code. -/
def get_current_user_source (decoded : Option Payload)
    (_required_scopes : List String) : AuthOutcome :=
  match decoded with
  | none => .httpError 401 "Could not validate credentials"
  | some payload =>
      match pyInt (subSuffix payload.sub "") with
      | none => .unhandled
      | some user_id =>
          if user_id = 0 then .httpError 401 "Could not validate credentials"
          else if payload.type.getD "access" ≠ "access" then
            .httpError 403 "Invalid token type"
          else .unhandled

/-- The `refresh_token` endpoint as the source executes it: identical to
`refresh_endpoint` up to the falsy-id check, after which the query at
auth.py:122-128 evaluates the nonexistent `models.User.id` /
`models.User.is_active` and raises `AttributeError`, which the body's
`except Exception` turns into `"Invalid refresh token"` 400 — so the
`"User not found"` 404 and the success path are unreachable as written. -/
def refresh_endpoint_source (now : Int) (c : TokenCache) (token : String)
    (decoded : Option Payload) : RefreshResult × TokenCache :=
  match verify_token now c token decoded with
  | (.exn, c') => (.errorResult "Invalid refresh token" 400, c')
  | (.ok payload?, c') =>
      match payload? with
      | none => (.errorResult "Invalid refresh token" 400, c')
      | some payload =>
          if payload.type ≠ some "refresh" then
            (.errorResult "Invalid refresh token" 400, c')
          else
            match pyInt (subSuffix payload.sub ":") with
            | none => (.errorResult "Invalid refresh token" 400, c')
            | some user_id =>
                if user_id = 0 then
                  (.errorResult "Invalid token format" 400, c')
                else (.errorResult "Invalid refresh token" 400, c')

/-- A one-entry well-formed store, used as concrete witness input: principal
1 holds token `"t"` expiring at 10. -/
def sampleCache : TokenCache :=
  { refresh_tokens := [(1, { refresh_token := "t", expires_at := 10 })],
    token_lookup := [("t", { user_id := 1, expires_at := 10 })] }

/-- A sample admin principal, used as concrete witness input. -/
def sampleAdmin : User :=
  { user_id := 7, password := "h", user_role := "admin" }

/-- A sample principal lookup knowing only `sampleAdmin`, used as concrete
witness input. -/
def sampleDb (i : Int) : Option User :=
  if i = 7 then some sampleAdmin else none

/-! # Store state machine -/

/-- Mirror well-formedness of the two dicts: keys are unique, every record's
token is in the lookup dict with the same principal and expiry, and every
lookup entry's principal has the record with the same token and expiry. -/
def WF (c : TokenCache) : Prop :=
  (akeys c.refresh_tokens).Nodup ∧
  (akeys c.token_lookup).Nodup ∧
  (∀ p ∈ c.refresh_tokens,
     alookup c.token_lookup p.2.refresh_token =
       some { user_id := p.1, expires_at := p.2.expires_at }) ∧
  (∀ q ∈ c.token_lookup,
     alookup c.refresh_tokens q.2.user_id =
       some { refresh_token := q.1, expires_at := q.2.expires_at })

instance decidableWF (c : TokenCache) : Decidable (WF c) := by
  unfold WF
  infer_instance

/-- One public store operation, carrying the wall-clock instant at which it
runs. -/
inductive StoreOp where
  | setOp (now : Int) (user_id : Int) (token : String) (expires_delta : Int)
  | getOp (now : Int) (token : String)
  | delOp (user_id : Int)
  | cleanupOp (now : Int)
deriving DecidableEq, Repr

/-- State transition of one operation (the value answered is irrelevant to
the mirror invariant).  A `KeyError` from `set_token`/`delete_token` is
raised before either dict is mutated, so the store state the next operation
sees is unchanged. -/
def applyOp (c : TokenCache) : StoreOp → TokenCache
  | .setOp now user_id token d =>
      match set_token now c user_id token d with
      | some c' => c'
      | none => c
  | .getOp now token => (get_user_id_by_token now c token).2
  | .delOp user_id =>
      match delete_token c user_id with
      | some r => r.2
      | none => c
  | .cleanupOp now => (cleanup_expired_tokens now c).2

/-- Run a sequence of store operations. -/
def runOps (c : TokenCache) (ops : List StoreOp) : TokenCache :=
  ops.foldl applyOp c

/-- Freshness of a `set_token` call: the stored token string is not
currently the live token of a *different* principal.  Every token the system
actually stores embeds its principal id in its signed `sub` claim, so
distinct principals always store distinct strings. -/
def safeOp (c : TokenCache) : StoreOp → Bool
  | .setOp _ user_id token _ =>
      match alookup c.token_lookup token with
      | none => true
      | some e => e.user_id == user_id
  | _ => true

/-- All operations of the sequence are fresh at their application point. -/
def safeOps (c : TokenCache) : List StoreOp → Bool
  | [] => true
  | op :: rest => safeOp c op && safeOps (applyOp c op) rest


/-! # Association-list lemmas -/

section AssocListLemmas

variable {α β : Type} [DecidableEq α]

theorem alookup_append (l₁ l₂ : List (α × β)) (k : α) :
    alookup (l₁ ++ l₂) k =
      (match alookup l₁ k with
       | some v => some v
       | none => alookup l₂ k) := by
  induction l₁ with
  | nil => simp [alookup]
  | cons p rest ih =>
    obtain ⟨k', v⟩ := p
    by_cases h : k' = k <;> simp [alookup, h, ih]

theorem alookup_aerase_self (l : List (α × β)) (k : α) :
    alookup (aerase l k) k = none := by
  induction l with
  | nil => rfl
  | cons p rest ih =>
    obtain ⟨k', v⟩ := p
    by_cases h : k' = k <;> simp [aerase, alookup, h, ih]

theorem alookup_aerase_ne (l : List (α × β)) (k' k : α) (h : k' ≠ k) :
    alookup (aerase l k') k = alookup l k := by
  induction l with
  | nil => rfl
  | cons p rest ih =>
    obtain ⟨k'', v⟩ := p
    by_cases h2 : k'' = k'
    · subst h2
      have hk : k'' ≠ k := h
      simp [aerase, alookup, hk, ih]
    · by_cases h3 : k'' = k
      · subst h3
        simp [aerase, alookup, h2, ih]
      · simp [aerase, alookup, h2, h3, ih]

theorem alookup_ainsert_self (l : List (α × β)) (k : α) (v : β) :
    alookup (ainsert l k v) k = some v := by
  unfold ainsert
  rw [alookup_append, alookup_aerase_self]
  simp [alookup]

theorem alookup_ainsert_ne (l : List (α × β)) (k' k : α) (v : β) (h : k' ≠ k) :
    alookup (ainsert l k' v) k = alookup l k := by
  unfold ainsert
  rw [alookup_append, alookup_aerase_ne l k' k h]
  cases hcase : alookup l k with
  | some w => simp
  | none => simp [alookup, h]

theorem aerase_eq_filter (l : List (α × β)) (k : α) :
    aerase l k = l.filter (fun p => p.1 ≠ k) := by
  induction l with
  | nil => rfl
  | cons q rest ih =>
    obtain ⟨k', v⟩ := q
    by_cases h : k' = k <;> simp [aerase, List.filter_cons, h, ih]

theorem mem_aerase (l : List (α × β)) (k : α) (p : α × β) :
    p ∈ aerase l k ↔ p ∈ l ∧ p.1 ≠ k := by
  rw [aerase_eq_filter]
  simp [List.mem_filter]

theorem aerase_sublist (l : List (α × β)) (k : α) :
    (aerase l k).Sublist l := by
  rw [aerase_eq_filter]
  exact List.filter_sublist l

theorem nodup_akeys_aerase (l : List (α × β)) (k : α)
    (h : (akeys l).Nodup) : (akeys (aerase l k)).Nodup := by
  exact List.Nodup.sublist (List.Sublist.map Prod.fst (aerase_sublist l k)) h

theorem not_mem_akeys_aerase (l : List (α × β)) (k : α) :
    k ∉ akeys (aerase l k) := by
  intro hmem
  unfold akeys at hmem
  rcases List.mem_map.mp hmem with ⟨p, hp, hfst⟩
  have := (mem_aerase l k p).mp hp
  exact this.2 hfst

theorem akeys_append (l₁ l₂ : List (α × β)) :
    akeys (l₁ ++ l₂) = akeys l₁ ++ akeys l₂ := by
  simp [akeys]

theorem nodup_akeys_ainsert (l : List (α × β)) (k : α) (v : β)
    (h : (akeys l).Nodup) : (akeys (ainsert l k v)).Nodup := by
  unfold ainsert
  rw [akeys_append]
  have h1 := nodup_akeys_aerase l k h
  have h2 := not_mem_akeys_aerase l k
  rw [List.nodup_append]
  refine ⟨h1, by simp [akeys], ?_⟩
  intro x hx
  simp [akeys]
  intro hxk
  subst hxk
  exact absurd hx h2

theorem alookup_eq_none_of_not_mem (l : List (α × β)) (k : α)
    (h : k ∉ akeys l) : alookup l k = none := by
  induction l with
  | nil => rfl
  | cons p rest ih =>
    obtain ⟨k', v⟩ := p
    simp only [akeys, List.map_cons, List.mem_cons, not_or] at h
    have hne : k' ≠ k := fun hc => h.1 hc.symm
    have hr := ih (by simpa [akeys] using h.2)
    simp [alookup, hne, hr]

theorem alookup_mem (l : List (α × β)) (k : α) (v : β)
    (h : alookup l k = some v) : (k, v) ∈ l := by
  induction l with
  | nil => simp [alookup] at h
  | cons p rest ih =>
    obtain ⟨k', w⟩ := p
    by_cases h2 : k' = k
    · subst h2
      simp [alookup] at h
      simp [h]
    · simp [alookup, h2] at h
      simp [ih h]

theorem mem_alookup (l : List (α × β)) (k : α) (v : β)
    (hnd : (akeys l).Nodup) (h : (k, v) ∈ l) : alookup l k = some v := by
  induction l with
  | nil => simp at h
  | cons p rest ih =>
    obtain ⟨k', w⟩ := p
    rw [akeys, List.map_cons, List.nodup_cons] at hnd
    rcases List.mem_cons.mp h with heq | hmem
    · obtain ⟨rfl, rfl⟩ : k = k' ∧ v = w := by simpa [Prod.ext_iff] using heq
      simp [alookup]
    · have hkmem : k ∈ akeys rest := by
        unfold akeys
        exact List.mem_map_of_mem Prod.fst hmem
      have hk : k' ≠ k := fun hc => hnd.1 (hc ▸ hkmem)
      have ihr := ih (by simpa [akeys] using hnd.2) hmem
      simp [alookup, hk, ihr]

theorem mem_akeys_of_alookup (l : List (α × β)) (k : α) (v : β)
    (h : alookup l k = some v) : k ∈ akeys l := by
  unfold akeys
  exact List.mem_map_of_mem Prod.fst (alookup_mem l k v h)

theorem exists_alookup_of_mem_akeys (l : List (α × β)) (k : α)
    (h : k ∈ akeys l) : ∃ v, alookup l k = some v := by
  induction l with
  | nil => simp [akeys] at h
  | cons p rest ih =>
    obtain ⟨k', v⟩ := p
    by_cases h2 : k' = k
    · exact ⟨v, by simp [alookup, h2]⟩
    · simp [akeys, h2] at h
      rcases h with h | h
      · exact absurd h.symm h2
      · simpa [alookup, h2] using ih (by simpa [akeys] using h)

theorem not_mem_akeys_of_alookup_eq_none (l : List (α × β)) (k : α)
    (h : alookup l k = none) : k ∉ akeys l := by
  intro hmem
  rcases exists_alookup_of_mem_akeys l k hmem with ⟨v, hv⟩
  rw [h] at hv
  exact Option.noConfusion hv

theorem aerase_of_not_mem (l : List (α × β)) (k : α)
    (h : k ∉ akeys l) : aerase l k = l := by
  rw [aerase_eq_filter]
  apply List.filter_eq_self.mpr
  intro p hp
  simp only [decide_eq_true_eq]
  intro hc
  exact h (hc ▸ (by unfold akeys; exact List.mem_map_of_mem Prod.fst hp))

theorem mem_akeys_aerase (l : List (α × β)) (k x : α) :
    x ∈ akeys (aerase l k) ↔ x ∈ akeys l ∧ x ≠ k := by
  unfold akeys
  constructor
  · intro h
    rcases List.mem_map.mp h with ⟨p, hp, hfst⟩
    rw [mem_aerase] at hp
    exact ⟨hfst ▸ List.mem_map_of_mem Prod.fst hp.1, hfst ▸ hp.2⟩
  · rintro ⟨h1, h2⟩
    rcases List.mem_map.mp h1 with ⟨p, hp, hfst⟩
    exact hfst ▸ List.mem_map_of_mem Prod.fst
      ((mem_aerase l k p).mpr ⟨hp, hfst ▸ h2⟩)

theorem alookup_filter (l : List (α × β)) (P : α × β → Bool) (k : α) (v : β)
    (hnd : (akeys l).Nodup) (h : alookup l k = some v) (hP : P (k, v) = true) :
    alookup (l.filter P) k = some v := by
  have hmem : (k, v) ∈ l.filter P := List.mem_filter.mpr ⟨alookup_mem l k v h, hP⟩
  have hsub : (akeys (l.filter P)).Nodup :=
    List.Nodup.sublist (List.Sublist.map Prod.fst (List.filter_sublist l)) hnd
  exact mem_alookup _ _ _ hsub hmem

theorem mem_akeys_filter (l : List (α × β)) (P : α × β → Bool) (k : α)
    (hnd : (akeys l).Nodup) :
    k ∈ akeys (l.filter P) ↔ ∃ v, alookup l k = some v ∧ P (k, v) = true := by
  constructor
  · intro h
    rcases List.mem_map.mp h with ⟨p, hp, hfst⟩
    rcases List.mem_filter.mp hp with ⟨hmem, hP⟩
    refine ⟨p.2, ?_, ?_⟩
    · exact hfst ▸ mem_alookup l p.1 p.2 hnd hmem
    · have : (k, p.2) = p := by
        rw [← hfst]
    -- rebuild the pair from its components
      rw [this]
      exact hP
  · rintro ⟨v, hv, hP⟩
    have hmem : (k, v) ∈ l.filter P := List.mem_filter.mpr ⟨alookup_mem l k v hv, hP⟩
    exact List.mem_map_of_mem Prod.fst hmem

theorem foldl_congr_mem {γ δ : Type} (l : List γ) (f g : δ → γ → δ) (a : δ)
    (h : ∀ x ∈ l, ∀ acc, f acc x = g acc x) : l.foldl f a = l.foldl g a := by
  induction l generalizing a with
  | nil => rfl
  | cons x xs ih =>
    rw [List.foldl_cons, List.foldl_cons, h x (List.mem_cons_self x xs) a]
    exact ih _ (fun y hy acc => h y (List.mem_cons_of_mem x hy) acc)

theorem foldl_aerase_eq_filter (ts : List α) (l : List (α × β)) :
    ts.foldl (fun acc k => aerase acc k) l
      = l.filter (fun p => decide (p.1 ∉ ts)) := by
  induction ts generalizing l with
  | nil => simp
  | cons t ts' ih =>
    rw [List.foldl_cons, ih, aerase_eq_filter, List.filter_filter]
    apply List.filter_congr
    intro p _
    by_cases h1 : p.1 ∈ ts' <;> by_cases h2 : p.1 = t <;>
      simp [h1, h2, List.mem_cons]

end AssocListLemmas

/-! # Mirror-invariant preservation -/

theorem WF_emptyCache : WF emptyCache := by
  refine ⟨?_, ?_, ?_, ?_⟩ <;> simp [emptyCache, akeys]

theorem invalidate_user_tokens_some (c : TokenCache) (user_id : Int)
    (res : Bool × TokenCache) (h : invalidate_user_tokens c user_id = some res) :
    (alookup c.refresh_tokens user_id = none ∧ res = (false, c)) ∨
    (∃ r e, alookup c.refresh_tokens user_id = some r ∧
       alookup c.token_lookup r.refresh_token = some e ∧
       res = (true,
         { refresh_tokens := aerase c.refresh_tokens user_id,
           token_lookup := aerase c.token_lookup r.refresh_token })) := by
  cases hru : alookup c.refresh_tokens user_id with
  | none =>
    left
    rw [invalidate_user_tokens, hru] at h
    simp only at h
    exact ⟨rfl, by simpa using h.symm⟩
  | some r =>
    cases hrt : alookup c.token_lookup r.refresh_token with
    | none =>
      rw [invalidate_user_tokens, hru] at h
      simp only [hrt] at h
      exact Option.noConfusion h
    | some e =>
      right
      rw [invalidate_user_tokens, hru] at h
      simp only [hrt] at h
      exact ⟨r, e, rfl, hrt, by simpa using h.symm⟩

theorem WF_invalidate_user_tokens (c : TokenCache) (user_id : Int) (h : WF c) :
    ∃ res, invalidate_user_tokens c user_id = some res ∧ WF res.2 := by
  obtain ⟨hndR, hndL, hdir1, hdir2⟩ := h
  cases hru : alookup c.refresh_tokens user_id with
  | none =>
    exact ⟨(false, c), by simp [invalidate_user_tokens, hru],
      hndR, hndL, hdir1, hdir2⟩
  | some r =>
    have h1r0 := hdir1 (user_id, r) (alookup_mem _ _ _ hru)
    dsimp only at h1r0
    refine ⟨(true,
      { refresh_tokens := aerase c.refresh_tokens user_id,
        token_lookup := aerase c.token_lookup r.refresh_token }),
      by simp [invalidate_user_tokens, hru, h1r0], ?_⟩
    refine ⟨nodup_akeys_aerase _ _ hndR, nodup_akeys_aerase _ _ hndL, ?_, ?_⟩
    · intro p hp
      rw [mem_aerase] at hp
      obtain ⟨hpmem, hpne⟩ := hp
      have h1 := hdir1 p hpmem
      have h1r := hdir1 (user_id, r) (alookup_mem _ _ _ hru)
      have hne : r.refresh_token ≠ p.2.refresh_token := by
        intro hc
        rw [← hc, h1r] at h1
        have h' : user_id = p.1 ∧ r.expires_at = p.2.expires_at := by
          simpa [LookupEntry.mk.injEq] using h1
        exact hpne h'.1.symm
      rw [alookup_aerase_ne _ _ _ hne]
      exact h1
    · intro q hq
      rw [mem_aerase] at hq
      obtain ⟨hqmem, hqne⟩ := hq
      have h2 := hdir2 q hqmem
      have hne : user_id ≠ q.2.user_id := by
        intro hc
        rw [← hc, hru] at h2
        have h' : r = { refresh_token := q.1, expires_at := q.2.expires_at } := by
          simpa using h2
        exact hqne (congrArg RefreshRecord.refresh_token h').symm
      rw [alookup_aerase_ne _ _ _ hne]
      exact h2

theorem WF_invalidate_token (c : TokenCache) (token : String) (h : WF c) :
    WF (invalidate_token c token).2 := by
  obtain ⟨hndR, hndL, hdir1, hdir2⟩ := h
  cases hte : alookup c.token_lookup token with
  | none =>
    simp only [invalidate_token, hte]
    exact ⟨hndR, hndL, hdir1, hdir2⟩
  | some e =>
    simp only [invalidate_token, hte]
    refine ⟨nodup_akeys_aerase _ _ hndR, nodup_akeys_aerase _ _ hndL, ?_, ?_⟩
    · intro p hp
      rw [mem_aerase] at hp
      obtain ⟨hpmem, hpne⟩ := hp
      have h1 := hdir1 p hpmem
      have h2e := hdir2 (token, e) (alookup_mem _ _ _ hte)
      have hne : token ≠ p.2.refresh_token := by
        intro hc
        rw [← hc, hte] at h1
        have h' : e = { user_id := p.1, expires_at := p.2.expires_at } := by
          simpa using h1
        exact hpne (congrArg LookupEntry.user_id h').symm
      rw [alookup_aerase_ne _ _ _ hne]
      exact h1
    · intro q hq
      rw [mem_aerase] at hq
      obtain ⟨hqmem, hqne⟩ := hq
      have h2 := hdir2 q hqmem
      have h2e := hdir2 (token, e) (alookup_mem _ _ _ hte)
      have hne : e.user_id ≠ q.2.user_id := by
        intro hc
        rw [← hc, h2e] at h2
        have h' : token = q.1 ∧ e.expires_at = q.2.expires_at := by
          simpa [RefreshRecord.mk.injEq] using h2
        exact hqne h'.1.symm
      rw [alookup_aerase_ne _ _ _ hne]
      exact h2

theorem alookup_refresh_invalidate_user_self (c : TokenCache) (user_id : Int)
    (res : Bool × TokenCache) (h : invalidate_user_tokens c user_id = some res) :
    alookup res.2.refresh_tokens user_id = none := by
  rcases invalidate_user_tokens_some c user_id res h with
    ⟨hru, rfl⟩ | ⟨r, e, hru, hrt, rfl⟩
  · exact hru
  · exact alookup_aerase_self _ _

theorem WF_set_token (now : Int) (c : TokenCache) (user_id : Int) (token : String)
    (d : Int) (h : WF c)
    (hfresh : ∀ e, alookup c.token_lookup token = some e → e.user_id = user_id) :
    ∃ c', set_token now c user_id token d = some c' ∧ WF c' := by
  obtain ⟨res, hres, h1⟩ := WF_invalidate_user_tokens c user_id h
  have hnone := alookup_refresh_invalidate_user_self c user_id res hres
  -- freshness carries over to the intermediate state
  have hfresh1 : ∀ e, alookup res.2.token_lookup token = some e →
      e.user_id = user_id := by
    intro e he
    rcases invalidate_user_tokens_some c user_id res hres with
      ⟨hru, rfl⟩ | ⟨r, e0, hru, hrt0, rfl⟩
    · exact hfresh e he
    · dsimp only at he
      by_cases hrt : r.refresh_token = token
      · rw [hrt, alookup_aerase_self] at he
        exact Option.noConfusion he
      · apply hfresh
        rwa [alookup_aerase_ne _ _ _ hrt] at he
  have hstep : set_token now c user_id token d =
      some
        { refresh_tokens :=
            ainsert res.2.refresh_tokens user_id
              { refresh_token := token, expires_at := now + d },
          token_lookup :=
            ainsert res.2.token_lookup token
              { user_id := user_id, expires_at := now + d } } := by
    obtain ⟨b, c1⟩ := res
    simp [set_token, hres]
  obtain ⟨hndR1, hndL1, hdir11, hdir21⟩ := h1
  set c1 := res.2 with hc1
  refine ⟨_, hstep, ?_⟩
  refine ⟨nodup_akeys_ainsert _ _ _ hndR1, nodup_akeys_ainsert _ _ _ hndL1, ?_, ?_⟩
  · intro p hp
    simp only [ainsert] at hp
    rcases List.mem_append.mp hp with hold | hnew
    · rw [mem_aerase] at hold
      obtain ⟨hpmem, hpne⟩ := hold
      have hd := hdir11 p hpmem
      by_cases htk : p.2.refresh_token = token
      · exfalso
        rw [htk] at hd
        exact hpne (hfresh1 _ hd)
      · rw [alookup_ainsert_ne _ _ _ _ (fun hc => htk hc.symm)]
        exact hd
    · have hpp : p = (user_id, { refresh_token := token, expires_at := now + d }) := by
        simpa using hnew
      rw [hpp]
      exact alookup_ainsert_self _ _ _
  · intro q hq
    simp only [ainsert] at hq
    rcases List.mem_append.mp hq with hold | hnew
    · rw [mem_aerase] at hold
      obtain ⟨hqmem, hqne⟩ := hold
      have hd := hdir21 q hqmem
      by_cases huk : q.2.user_id = user_id
      · exfalso
        rw [huk, hnone] at hd
        exact Option.noConfusion hd
      · rw [alookup_ainsert_ne _ _ _ _ (fun hc => huk hc.symm)]
        exact hd
    · have hqq : q = (token, { user_id := user_id, expires_at := now + d }) := by
        simpa using hnew
      rw [hqq]
      exact alookup_ainsert_self _ _ _

theorem WF_get_user_id_by_token (now : Int) (c : TokenCache) (token : String)
    (h : WF c) : WF (get_user_id_by_token now c token).2 := by
  unfold get_user_id_by_token
  cases hte : alookup c.token_lookup token with
  | none => simpa [hte]
  | some e =>
    by_cases hex : e.expires_at < now
    · simpa [hte, hex] using WF_invalidate_token c token h
    · simpa [hte, hex]

theorem WF_delete_token (c : TokenCache) (user_id : Int) (h : WF c) :
    ∃ res, delete_token c user_id = some res ∧ WF res.2 :=
  WF_invalidate_user_tokens c user_id h

/-! # Sweep characterisation -/

theorem fold_invalidate_token_spec (ts : List String) (c : TokenCache)
    (hnd : ts.Nodup) (hmem : ∀ t ∈ ts, t ∈ akeys c.token_lookup) :
    (ts.foldl (fun acc t => (invalidate_token acc t).2) c).token_lookup
        = c.token_lookup.filter (fun q => decide (q.1 ∉ ts)) ∧
    (ts.foldl (fun acc t => (invalidate_token acc t).2) c).refresh_tokens
        = ts.foldl
            (fun racc t =>
              match alookup c.token_lookup t with
              | some e => aerase racc e.user_id
              | none => racc)
            c.refresh_tokens := by
  induction ts generalizing c with
  | nil =>
    constructor
    · simp
    · rfl
  | cons t ts' ih =>
    obtain ⟨e, he⟩ := exists_alookup_of_mem_akeys _ _ (hmem t (List.mem_cons_self t ts'))
    have hstep : (invalidate_token c t).2 =
        { refresh_tokens := aerase c.refresh_tokens e.user_id,
          token_lookup := aerase c.token_lookup t } := by
      simp [invalidate_token, he]
    have hnd' : ts'.Nodup := (List.nodup_cons.mp hnd).2
    have hnotmem : t ∉ ts' := (List.nodup_cons.mp hnd).1
    have hmem' : ∀ t' ∈ ts',
        t' ∈ akeys (aerase c.token_lookup t) := by
      intro t' ht'
      exact (mem_akeys_aerase _ _ _).mpr
        ⟨hmem t' (List.mem_cons_of_mem t ht'),
         fun hcq => hnotmem (hcq ▸ ht')⟩
    have ihc := ih
      { refresh_tokens := aerase c.refresh_tokens e.user_id,
        token_lookup := aerase c.token_lookup t } hnd' hmem'
    rw [List.foldl_cons, hstep]
    constructor
    · rw [ihc.1]
      show (aerase c.token_lookup t).filter _ = _
      rw [aerase_eq_filter, List.filter_filter]
      apply List.filter_congr
      intro q _
      by_cases h1 : q.1 ∈ ts' <;> by_cases h2 : q.1 = t <;>
        simp [h1, h2, List.mem_cons]
    · rw [ihc.2, List.foldl_cons, he]
      show ts'.foldl _ (aerase c.refresh_tokens e.user_id)
        = ts'.foldl _ (aerase c.refresh_tokens e.user_id)
      apply foldl_congr_mem
      intro x hx acc
      have hlx : alookup (aerase c.token_lookup t) x = alookup c.token_lookup x :=
        alookup_aerase_ne _ _ _ (fun hcq => hnotmem (hcq ▸ hx))
      show (match alookup (aerase c.token_lookup t) x with
            | some e' => aerase acc e'.user_id
            | none => acc)
          = (match alookup c.token_lookup x with
             | some e' => aerase acc e'.user_id
             | none => acc)
      rw [hlx]

theorem fold_match_eq_foldl_aerase (ts : List String)
    (L : List (String × LookupEntry)) (R : List (Int × RefreshRecord)) :
    ts.foldl
        (fun racc t =>
          match alookup L t with
          | some e => aerase racc e.user_id
          | none => racc) R
      = (ts.filterMap (fun t => (alookup L t).map (fun e => e.user_id))).foldl
          (fun racc u => aerase racc u) R := by
  induction ts generalizing R with
  | nil => rfl
  | cons t ts' ih =>
    cases h : alookup L t with
    | none => simp [List.foldl_cons, List.filterMap_cons, h, ih]
    | some e => simp [List.foldl_cons, List.filterMap_cons, h, ih]

theorem cleanup_expired_tokens_spec (now : Int) (c : TokenCache) (hWF : WF c) :
    cleanup_expired_tokens now c
      = ((c.token_lookup.filter (fun q => q.2.expires_at < now)).length,
         { refresh_tokens := c.refresh_tokens.filter (fun p => ¬ p.2.expires_at < now),
           token_lookup := c.token_lookup.filter (fun q => ¬ q.2.expires_at < now) }) := by
  obtain ⟨hndR, hndL, hdir1, hdir2⟩ := hWF
  have hndts : (akeys (c.token_lookup.filter (fun q => q.2.expires_at < now))).Nodup :=
    List.Nodup.sublist (List.Sublist.map Prod.fst (List.filter_sublist c.token_lookup)) hndL
  have hmemts : ∀ t ∈ akeys (c.token_lookup.filter (fun q => q.2.expires_at < now)),
      t ∈ akeys c.token_lookup :=
    fun t ht => (List.Sublist.map Prod.fst (List.filter_sublist c.token_lookup)).subset ht
  have hpass1 := fold_invalidate_token_spec
    (akeys (c.token_lookup.filter (fun q => q.2.expires_at < now))) c hndts hmemts
  have hL1 : (List.foldl (fun acc t => (invalidate_token acc t).2) c
        (akeys (c.token_lookup.filter (fun q => q.2.expires_at < now)))).token_lookup
      = c.token_lookup.filter (fun q => ¬ q.2.expires_at < now) := by
    rw [hpass1.1]
    apply List.filter_congr
    intro q hq
    have hiff : q.1 ∈ akeys (c.token_lookup.filter (fun q' => q'.2.expires_at < now))
        ↔ q.2.expires_at < now := by
      rw [mem_akeys_filter _ _ _ hndL]
      constructor
      · rintro ⟨v, hv, hPv⟩
        have h2 := mem_alookup _ _ _ hndL hq
        rw [h2] at hv
        obtain rfl : q.2 = v := Option.some.inj hv
        simpa using hPv
      · intro hexp
        exact ⟨q.2, mem_alookup _ _ _ hndL hq, by simpa using hexp⟩
    by_cases hexp : q.2.expires_at < now <;> simp [hiff, hexp]
  have hR1 : (List.foldl (fun acc t => (invalidate_token acc t).2) c
        (akeys (c.token_lookup.filter (fun q => q.2.expires_at < now)))).refresh_tokens
      = c.refresh_tokens.filter (fun p => ¬ p.2.expires_at < now) := by
    rw [hpass1.2, fold_match_eq_foldl_aerase, foldl_aerase_eq_filter]
    apply List.filter_congr
    intro p hp
    have hiff : p.1 ∈ (akeys (c.token_lookup.filter
            (fun q => q.2.expires_at < now))).filterMap
          (fun t => (alookup c.token_lookup t).map (fun e => e.user_id))
        ↔ p.2.expires_at < now := by
      constructor
      · intro hmem
        rcases List.mem_filterMap.mp hmem with ⟨t, ht, hmap⟩
        rcases (mem_akeys_filter _ _ _ hndL).mp ht with ⟨v, hv, hPv⟩
        rw [hv] at hmap
        have heu : v.user_id = p.1 := by simpa using hmap
        have hd2 := hdir2 (t, v) (alookup_mem _ _ _ hv)
        dsimp only at hd2
        have hpl := mem_alookup _ _ _ hndR hp
        rw [heu, hpl] at hd2
        have hp2 : p.2 = { refresh_token := t, expires_at := v.expires_at } :=
          Option.some.inj hd2
        rw [hp2]
        simpa using hPv
      · intro hexp
        have hd1 := hdir1 p hp
        refine List.mem_filterMap.mpr ⟨p.2.refresh_token, ?_, ?_⟩
        · exact (mem_akeys_filter _ _ _ hndL).mpr
            ⟨{ user_id := p.1, expires_at := p.2.expires_at }, hd1, by simpa using hexp⟩
        · rw [hd1]
          rfl
    by_cases hexp : p.2.expires_at < now <;> simp [hiff, hexp]
  have husers : (List.foldl (fun acc t => (invalidate_token acc t).2) c
        (akeys (c.token_lookup.filter (fun q => q.2.expires_at < now)))).refresh_tokens.filter
          (fun p => p.2.expires_at < now) = [] := by
    rw [hR1, List.filter_filter]
    have hfalse : ∀ p ∈ c.refresh_tokens,
        (decide (p.2.expires_at < now) && decide (¬ p.2.expires_at < now)) = false := by
      intro p _
      by_cases hexp : p.2.expires_at < now <;> simp [hexp]
    calc c.refresh_tokens.filter
          (fun p => decide (p.2.expires_at < now) && decide (¬ p.2.expires_at < now))
        = c.refresh_tokens.filter (fun _ => false) :=
          List.filter_congr (fun p hp => hfalse p hp)
      _ = [] := List.filter_false c.refresh_tokens
  simp only [akeys] at hL1 hR1 husers
  simp only [cleanup_expired_tokens, akeys]
  rw [husers]
  simp only [List.map_nil, List.length_nil, List.foldl_nil, Nat.add_zero]
  rw [hL1, hR1]
  simp

/-- Under the mirror invariant there are exactly as many expired records as
expired lookup entries. -/
theorem length_filter_expired_eq (now : Int) (c : TokenCache) (hWF : WF c) :
    (c.refresh_tokens.filter (fun p => p.2.expires_at < now)).length
      = (c.token_lookup.filter (fun q => q.2.expires_at < now)).length := by
  obtain ⟨hndR, hndL, hdir1, hdir2⟩ := hWF
  have hRnodup : c.refresh_tokens.Nodup := List.Nodup.of_map Prod.fst hndR
  have htksnd :
      ((c.refresh_tokens.filter (fun p => p.2.expires_at < now)).map
        (fun p => p.2.refresh_token)).Nodup := by
    apply List.Nodup.map_on
    · intro x hx y hy hxy
      have hx' := List.mem_of_mem_filter hx
      have hy' := List.mem_of_mem_filter hy
      have hdx := hdir1 x hx'
      have hdy := hdir1 y hy'
      rw [hxy, hdy] at hdx
      have hxy1 : y.1 = x.1 ∧ y.2.expires_at = x.2.expires_at := by
        simpa [LookupEntry.mk.injEq] using hdx
      have hax := mem_alookup _ _ _ hndR hx'
      have hay := mem_alookup _ _ _ hndR hy'
      rw [hxy1.1, hax] at hay
      have h2 : x.2 = y.2 := Option.some.inj hay
      exact Prod.ext hxy1.1.symm h2
    · exact List.Nodup.filter _ hRnodup
  have hkysnd : (akeys (c.token_lookup.filter
      (fun q => q.2.expires_at < now))).Nodup :=
    List.Nodup.sublist (List.Sublist.map Prod.fst (List.filter_sublist _)) hndL
  have hsub1 : ((c.refresh_tokens.filter (fun p => p.2.expires_at < now)).map
        (fun p => p.2.refresh_token))
      ⊆ akeys (c.token_lookup.filter (fun q => q.2.expires_at < now)) := by
    intro x hx
    rcases List.mem_map.mp hx with ⟨p, hp, hpx⟩
    rcases List.mem_filter.mp hp with ⟨hmem, hexp⟩
    have hd := hdir1 p hmem
    rw [hpx] at hd
    exact (mem_akeys_filter _ _ _ hndL).mpr
      ⟨{ user_id := p.1, expires_at := p.2.expires_at }, hd, by simpa using hexp⟩
  have hsub2 : akeys (c.token_lookup.filter (fun q => q.2.expires_at < now))
      ⊆ (c.refresh_tokens.filter (fun p => p.2.expires_at < now)).map
          (fun p => p.2.refresh_token) := by
    intro t ht
    rcases (mem_akeys_filter _ _ _ hndL).mp ht with ⟨e, he, hPe⟩
    have hd2 := hdir2 (t, e) (alookup_mem _ _ _ he)
    dsimp only at hd2
    have hmem := alookup_mem _ _ _ hd2
    have hfil : (e.user_id, ({ refresh_token := t, expires_at := e.expires_at } :
        RefreshRecord)) ∈ c.refresh_tokens.filter (fun p => p.2.expires_at < now) :=
      List.mem_filter.mpr ⟨hmem, by simpa using hPe⟩
    exact List.mem_map.mpr ⟨_, hfil, rfl⟩
  have hle1 := List.Subperm.length_le (List.Nodup.subperm htksnd hsub1)
  have hle2 := List.Subperm.length_le (List.Nodup.subperm hkysnd hsub2)
  rw [List.length_map] at hle1 hle2
  unfold akeys at hle1 hle2
  rw [List.length_map] at hle1 hle2
  exact Nat.le_antisymm hle1 hle2

theorem WF_cleanup (now : Int) (c : TokenCache) (h : WF c) :
    WF (cleanup_expired_tokens now c).2 := by
  have hspec := cleanup_expired_tokens_spec now c h
  obtain ⟨hndR, hndL, hdir1, hdir2⟩ := h
  rw [hspec]
  refine ⟨?_, ?_, ?_, ?_⟩
  · exact List.Nodup.sublist (List.Sublist.map Prod.fst (List.filter_sublist _)) hndR
  · exact List.Nodup.sublist (List.Sublist.map Prod.fst (List.filter_sublist _)) hndL
  · intro p hp
    rcases List.mem_filter.mp hp with ⟨hmem, hlive⟩
    exact alookup_filter _ _ _ _ hndL (hdir1 p hmem) (by simpa using hlive)
  · intro q hq
    rcases List.mem_filter.mp hq with ⟨hmem, hlive⟩
    exact alookup_filter _ _ _ _ hndR (hdir2 q hmem) (by simpa using hlive)

theorem WF_applyOp (c : TokenCache) (op : StoreOp) (h : WF c)
    (hsafe : safeOp c op = true) : WF (applyOp c op) := by
  cases op with
  | setOp now user_id token d =>
    have hfr : ∀ e, alookup c.token_lookup token = some e → e.user_id = user_id := by
      intro e he
      simp only [safeOp] at hsafe
      rw [he] at hsafe
      simpa using hsafe
    obtain ⟨c', hc', hWFc'⟩ := WF_set_token now c user_id token d h hfr
    simp only [applyOp, hc']
    exact hWFc'
  | getOp now token => exact WF_get_user_id_by_token now c token h
  | delOp user_id =>
    obtain ⟨res, hres, hWFres⟩ := WF_delete_token c user_id h
    simp only [applyOp, hres]
    exact hWFres
  | cleanupOp now => exact WF_cleanup now c h

theorem WF_runOps (c : TokenCache) (ops : List StoreOp) (h : WF c)
    (hsafe : safeOps c ops = true) : WF (runOps c ops) := by
  induction ops generalizing c with
  | nil => exact h
  | cons op rest ih =>
    unfold safeOps at hsafe
    obtain ⟨h1, h2⟩ := Bool.and_eq_true_iff.mp hsafe
    show WF (List.foldl applyOp c (op :: rest))
    rw [List.foldl_cons]
    exact ih (applyOp c op) (WF_applyOp c op h h1) h2

/-! # Claim C2 — supersession -/

/-- On a well-formed store `set_token` completes (the record's token, when a
record exists, is a lookup key, so the unguarded `del` cannot raise), and
afterwards the user's record and the token's lookup entry hold the new
token. -/
theorem set_token_of_WF (now : Int) (c : TokenCache) (user_id : Int)
    (token : String) (d : Int) (h : WF c) :
    ∃ c', set_token now c user_id token d = some c' ∧
      alookup c'.refresh_tokens user_id
        = some { refresh_token := token, expires_at := now + d } ∧
      alookup c'.token_lookup token
        = some { user_id := user_id, expires_at := now + d } := by
  obtain ⟨res, hres, _⟩ := WF_invalidate_user_tokens c user_id h
  obtain ⟨b, c1⟩ := res
  refine ⟨{ refresh_tokens :=
              ainsert c1.refresh_tokens user_id
                { refresh_token := token, expires_at := now + d },
            token_lookup :=
              ainsert c1.token_lookup token
                { user_id := user_id, expires_at := now + d } }, ?_, ?_, ?_⟩
  · simp [set_token, hres]
  · exact alookup_ainsert_self _ _ _
  · exact alookup_ainsert_self _ _ _

/-- Shape of a successful `set_token` for a user whose current record token
is a live lookup key: the old token's lookup entry is removed and the new
one stored. -/
theorem set_token_supersedes (now dold d : Int) (c : TokenCache)
    (user_id : Int) (told tnew : String)
    (hrec : alookup c.refresh_tokens user_id
      = some { refresh_token := told, expires_at := dold })
    (hlk : ∃ e, alookup c.token_lookup told = some e) :
    set_token now c user_id tnew d =
      some
        { refresh_tokens :=
            ainsert (aerase c.refresh_tokens user_id) user_id
              { refresh_token := tnew, expires_at := now + d },
          token_lookup :=
            ainsert (aerase c.token_lookup told) tnew
              { user_id := user_id, expires_at := now + d } } := by
  obtain ⟨e, he⟩ := hlk
  simp [set_token, invalidate_user_tokens, hrec, he]

/-- C2 (counterexample): with the same token string stored twice
(`t1 = t2 = "a"`), both puts complete and `resolve_principal(t1)` answers
the principal, not `None`, so the claim quantified over *every* pair of
token strings fails. -/
theorem c2_counterexample :
    ((set_token 0 emptyCache 1 "a" 0).bind
        (fun c1 => set_token 0 c1 1 "a" 0)).map
        (fun c2 => (get_user_id_by_token 0 c2 "a").1)
      = some (some 1) := by
  decide

/-- C2 (amended): from any mirror-well-formed store (the states the store's
operations produce), for every pair of *distinct* token strings `t1 ≠ t2`
and non-negative ttl, `put(P, t1, ttl)` and then `put(P, t2, ttl)` both
complete, `resolve_principal(t1) = None` and `resolve_principal(t2) = P`. -/
theorem c2_supersession (c : TokenCache) (now ttl P : Int) (t1 t2 : String)
    (hWF : WF c) (hne : t1 ≠ t2) (httl : 0 ≤ ttl) :
    ∃ c1 c2, set_token now c P t1 ttl = some c1 ∧
      set_token now c1 P t2 ttl = some c2 ∧
      (get_user_id_by_token now c2 t1).1 = none ∧
      (get_user_id_by_token now c2 t2).1 = some P := by
  obtain ⟨c1, hset1, hrec1, hlk1⟩ := set_token_of_WF now c P t1 ttl hWF
  have hset2 := set_token_supersedes now (now + ttl) ttl c1 P t1 t2 hrec1 ⟨_, hlk1⟩
  refine ⟨c1, _, hset1, hset2, ?_, ?_⟩
  · have hnone : alookup (ainsert (aerase c1.token_lookup t1) t2
        { user_id := P, expires_at := now + ttl }) t1 = none := by
      rw [alookup_ainsert_ne _ _ _ _ (Ne.symm hne)]
      exact alookup_aerase_self _ _
    simp [get_user_id_by_token, hnone]
  · have hsome : alookup (ainsert (aerase c1.token_lookup t1) t2
        { user_id := P, expires_at := now + ttl }) t2
        = some { user_id := P, expires_at := now + ttl } :=
      alookup_ainsert_self _ _ _
    have hcond : ¬ (now + ttl < now) := by omega
    simp [get_user_id_by_token, hsome, hcond]

/-- C2 witness at `P = 1`, `t1 = "a"`, `t2 = "b"`, `ttl = 5`, from the
empty store. -/
theorem c2_witness :
    (WF emptyCache ∧ ("a" : String) ≠ "b" ∧ (0 : Int) ≤ 5) ∧
    (∃ c1 c2, set_token 0 emptyCache 1 "a" 5 = some c1 ∧
       set_token 0 c1 1 "b" 5 = some c2 ∧
       (get_user_id_by_token 0 c2 "a").1 = none ∧
       (get_user_id_by_token 0 c2 "b").1 = some 1) :=
  ⟨⟨by decide, by decide, by decide⟩,
   c2_supersession emptyCache 0 5 1 "a" "b" (by decide) (by decide) (by decide)⟩

/-! # Claim C7 — lazy expiry eviction -/

/-- C7: from any mirror-well-formed store, `put(P, t, ttl)` with a negative
ttl completes, and `resolve_principal(t)` at any instant from the put onward
answers `None`, after which both the lookup entry for `t` and the record for
`P` are gone from the resulting state. -/
theorem c7_lazy_expiry (c : TokenCache) (now nowq ttl P : Int) (t : String)
    (hWF : WF c) (httl : ttl < 0) (hle : now ≤ nowq) :
    ∃ c1, set_token now c P t ttl = some c1 ∧
      (get_user_id_by_token nowq c1 t).1 = none ∧
      alookup (get_user_id_by_token nowq c1 t).2.token_lookup t = none ∧
      alookup (get_user_id_by_token nowq c1 t).2.refresh_tokens P = none := by
  obtain ⟨c1, hset, hrec, hlk⟩ := set_token_of_WF now c P t ttl hWF
  have hexp : now + ttl < nowq := by omega
  have hinv : (invalidate_token c1 t).2 =
      { refresh_tokens := aerase c1.refresh_tokens P,
        token_lookup := aerase c1.token_lookup t } := by
    simp [invalidate_token, hlk]
  refine ⟨c1, hset, ?_, ?_, ?_⟩
  · simp [get_user_id_by_token, hlk, hexp]
  · simp [get_user_id_by_token, hlk, hexp, hinv, alookup_aerase_self]
  · simp [get_user_id_by_token, hlk, hexp, hinv, alookup_aerase_self]

/-- C7 witness at `P = 1`, `t = "a"`, `ttl = -1`, put and resolve at `0`,
from the empty store. -/
theorem c7_witness :
    (WF emptyCache ∧ (-1 : Int) < 0 ∧ (0 : Int) ≤ 0) ∧
    (∃ c1, set_token 0 emptyCache 1 "a" (-1) = some c1 ∧
       (get_user_id_by_token 0 c1 "a").1 = none ∧
       alookup (get_user_id_by_token 0 c1 "a").2.token_lookup "a" = none ∧
       alookup (get_user_id_by_token 0 c1 "a").2.refresh_tokens 1 = none) :=
  ⟨⟨by decide, by decide, by decide⟩,
   c7_lazy_expiry emptyCache 0 0 (-1) 1 "a" (by decide) (by decide) (by decide)⟩

/-! # Claim C3 — mirror invariant -/

/-- C3 (counterexample): storing the same token string for two different
principals (`set_token(1, "a")` then `set_token(2, "a")`) leaves an orphan
record for principal 1 whose token now resolves to principal 2, so the
mirror invariant does not survive *every* operation sequence. -/
theorem c3_counterexample :
    ¬ WF (runOps emptyCache [.setOp 0 1 "a" 10, .setOp 0 2 "a" 10]) := by
  decide

/-- C3 (amended): starting from the empty store, any sequence of operations
in which each `set_token` stores a token that is not currently another
principal's live token keeps the two maps strict mirrors of each other. -/
theorem c3_mirror_invariant (ops : List StoreOp)
    (hsafe : safeOps emptyCache ops = true) : WF (runOps emptyCache ops) :=
  WF_runOps emptyCache ops WF_emptyCache hsafe

/-- C3 witness on a set/get/delete/cleanup sequence. -/
theorem c3_witness :
    safeOps emptyCache
        [.setOp 0 1 "a" 10, .getOp 0 "a", .delOp 1, .cleanupOp 0] = true ∧
    WF (runOps emptyCache
        [.setOp 0 1 "a" 10, .getOp 0 "a", .delOp 1, .cleanupOp 0]) :=
  ⟨by decide, c3_mirror_invariant _ (by decide)⟩

/-! # Claim C4 — sweep completeness -/

/-- C4: on a well-formed store with N expired records and M live ones, one
sweep returns N and leaves exactly the M live entries of both maps, in
place. -/
theorem c4_sweep_complete (now : Int) (c : TokenCache) (hWF : WF c) :
    (cleanup_expired_tokens now c).1
        = (c.refresh_tokens.filter (fun p => p.2.expires_at < now)).length ∧
    (cleanup_expired_tokens now c).2.refresh_tokens
        = c.refresh_tokens.filter (fun p => ¬ p.2.expires_at < now) ∧
    (cleanup_expired_tokens now c).2.token_lookup
        = c.token_lookup.filter (fun q => ¬ q.2.expires_at < now) := by
  have hspec := cleanup_expired_tokens_spec now c hWF
  have hcnt := length_filter_expired_eq now c hWF
  rw [hspec]
  exact ⟨hcnt.symm, rfl, rfl⟩

/-- C4 witness on a store with one expired and one live record. -/
theorem c4_witness :
    WF { refresh_tokens :=
           [(1, { refresh_token := "a", expires_at := -1 }),
            (2, { refresh_token := "b", expires_at := 10 })],
         token_lookup :=
           [("a", { user_id := 1, expires_at := -1 }),
            ("b", { user_id := 2, expires_at := 10 })] } ∧
    ((cleanup_expired_tokens 0
        { refresh_tokens :=
            [(1, { refresh_token := "a", expires_at := -1 }),
             (2, { refresh_token := "b", expires_at := 10 })],
          token_lookup :=
            [("a", { user_id := 1, expires_at := -1 }),
             ("b", { user_id := 2, expires_at := 10 })] }).1
        = ([(1, ({ refresh_token := "a", expires_at := -1 } : RefreshRecord)),
            (2, { refresh_token := "b", expires_at := 10 })].filter
            (fun p => p.2.expires_at < 0)).length ∧
     (cleanup_expired_tokens 0
        { refresh_tokens :=
            [(1, { refresh_token := "a", expires_at := -1 }),
             (2, { refresh_token := "b", expires_at := 10 })],
          token_lookup :=
            [("a", { user_id := 1, expires_at := -1 }),
             ("b", { user_id := 2, expires_at := 10 })] }).2.refresh_tokens
        = [(1, ({ refresh_token := "a", expires_at := -1 } : RefreshRecord)),
           (2, { refresh_token := "b", expires_at := 10 })].filter
            (fun p => ¬ p.2.expires_at < 0) ∧
     (cleanup_expired_tokens 0
        { refresh_tokens :=
            [(1, { refresh_token := "a", expires_at := -1 }),
             (2, { refresh_token := "b", expires_at := 10 })],
          token_lookup :=
            [("a", { user_id := 1, expires_at := -1 }),
             ("b", { user_id := 2, expires_at := 10 })] }).2.token_lookup
        = [("a", ({ user_id := 1, expires_at := -1 } : LookupEntry)),
           ("b", { user_id := 2, expires_at := 10 })].filter
            (fun q => ¬ q.2.expires_at < 0)) :=
  ⟨by decide, c4_sweep_complete 0 _ (by decide)⟩

/-! # Claim C1 — revocation precedence and store cross-check -/

theorem refresh_success_inv (now : Int) (c : TokenCache) (t : String)
    (dec : Option Payload) (db : Int → Option User) (uid : Int)
    (scopes : List String) (rt : String)
    (h : (refresh_endpoint now c t dec db).1 = .success uid scopes rt) :
    ∃ p, dec = some p ∧ p.type = some "refresh" ∧
      ∃ sid, pyInt (subSuffix p.sub ":") = some sid ∧ sid ≠ 0 ∧
        (get_user_id_by_token now c t).1 = some sid := by
  cases dec with
  | none => simp [refresh_endpoint, verify_token] at h
  | some p =>
    by_cases htp : p.type = some "refresh"
    · cases hget : (get_user_id_by_token now c t).1 with
      | none => simp [refresh_endpoint, verify_token, htp, hget] at h
      | some u =>
        by_cases hu0 : u = 0
        · simp [refresh_endpoint, verify_token, htp, hget, hu0] at h
        · cases hpi : pyInt (subSuffix p.sub ":") with
          | none => simp [refresh_endpoint, verify_token, htp, hget, hu0, hpi] at h
          | some sid =>
            by_cases hus : u = sid
            · refine ⟨p, rfl, htp, sid, hpi, ?_, ?_⟩
              · intro hc
                exact hu0 (by rw [hus, hc])
              · exact congrArg Option.some hus
            · simp [refresh_endpoint, verify_token, htp, hget, hu0, hpi, hus] at h
    · simp [refresh_endpoint, verify_token, htp] at h

/-- C1: (i) after a completed `delete_token(P)`, a Refresh presented with
P's stored refresh token answers the `"Invalid refresh token"` error,
whatever its (refresh-typed) decoded payload; (ii) in any state, Refresh
succeeds only when the store's `get_user_id_by_token` answers exactly the
(nonzero) principal id parsed from the token's subject claim. -/
theorem c1_revocation (now : Int) (c : TokenCache) (P : Int) (r : RefreshRecord)
    (t : String) (payload : Payload) (db : Int → Option User)
    (hrec : alookup c.refresh_tokens P = some r) (ht : r.refresh_token = t)
    (htype : payload.type = some "refresh") :
    (∀ res, delete_token c P = some res →
       (refresh_endpoint now res.2 t (some payload) db).1
         = .errorResult "Invalid refresh token" 400) ∧
    (∀ (s : TokenCache) (dec : Option Payload) (uid : Int)
        (scopes : List String) (rt : String),
       (refresh_endpoint now s t dec db).1 = .success uid scopes rt →
       ∃ p, dec = some p ∧ p.type = some "refresh" ∧
         ∃ sid, pyInt (subSuffix p.sub ":") = some sid ∧ sid ≠ 0 ∧
           (get_user_id_by_token now s t).1 = some sid) := by
  constructor
  · intro res hres
    rcases invalidate_user_tokens_some c P res hres with
      ⟨hru, hres2⟩ | ⟨r0, e0, hru, hrt0, hres2⟩
    · rw [hrec] at hru
      exact Option.noConfusion hru
    · rw [hrec] at hru
      obtain rfl : r = r0 := Option.some.inj hru
      subst hres2
      have hlk : alookup (aerase c.token_lookup r.refresh_token) t = none := by
        rw [← ht]
        exact alookup_aerase_self _ _
      have hget : (get_user_id_by_token now
          ({ refresh_tokens := aerase c.refresh_tokens P,
             token_lookup := aerase c.token_lookup r.refresh_token } :
            TokenCache) t).1 = none := by
        simp [get_user_id_by_token, hlk]
      show (refresh_endpoint now
          { refresh_tokens := aerase c.refresh_tokens P,
            token_lookup := aerase c.token_lookup r.refresh_token }
          t (some payload) db).1 = _
      simp [refresh_endpoint, verify_token, htype, hget]
  · intro s dec uid scopes rt hsucc
    exact refresh_success_inv now s t dec db uid scopes rt hsucc

/-- C1 witness: principal 1 with stored token `"t"` in `sampleCache`; the
deletion completes and empties the store. -/
theorem c1_witness :
    (alookup sampleCache.refresh_tokens 1
        = some { refresh_token := "t", expires_at := 10 } ∧
     delete_token sampleCache 1
        = some (true, { refresh_tokens := [], token_lookup := [] })) ∧
    (refresh_endpoint 0 { refresh_tokens := [], token_lookup := [] }
        "t" (some { type := some "refresh", sub := some "refresh:1", scopes := [] })
        (fun _ => none)).1
      = .errorResult "Invalid refresh token" 400 :=
  ⟨⟨by decide, by decide⟩,
   (c1_revocation 0 sampleCache
      1 { refresh_token := "t", expires_at := 10 } "t"
      { type := some "refresh", sub := some "refresh:1", scopes := [] }
      (fun _ => none) (by decide) (by decide) (by decide)).1
     (true, { refresh_tokens := [], token_lookup := [] }) (by decide)⟩

/-! # Claim C5 — scope derivation and inheritance -/

/-- C5 (code bug): the scope sets the source's shared derivation computes
are admin ⊇ manager ⊇ user as claimed, but `AuthorizeRequest` as written
can never act on them — every decodable access-typed token with a parseable
nonzero subject, whether carrying the admin-derived or the user-derived
scopes and whatever scopes are required, drives `get_current_user` into the
uncaught `AttributeError` of the principal query (`models.User.id` /
`models.User.is_active` do not exist) before any scope comparison, so
neither the claimed successes nor the claimed 403 refusals can occur. -/
theorem c5_scope_code_bug :
    (deriveScopes "admin" = ["user", "admin", "manager"] ∧
     deriveScopes "manager" = ["user", "manager"] ∧
     deriveScopes "warehouse_clerk" = ["user"]) ∧
    (∀ req, get_current_user_source
        (some { type := some "access", sub := some "user:7",
                scopes := deriveScopes "admin" }) req = .unhandled) ∧
    (∀ req, get_current_user_source
        (some { type := some "access", sub := some "user:3",
                scopes := deriveScopes "user" }) req = .unhandled) := by
  refine ⟨⟨rfl, rfl, rfl⟩, ?_, ?_⟩ <;> intro req <;> rfl

/-! # Claim C6 — AuthorizeRequest failure modes -/

/-- C6 (counterexample): a decodable token whose claim type is `refresh`
(not `access`) is answered 403 "Invalid token type", so the claimed uniform
401 for the wrong-claim-type case is false. -/
theorem c6_counterexample :
    get_current_user
        (some { type := some "refresh", sub := some "user:5", scopes := [] })
        (fun _ => none) []
      = .httpError 403 "Invalid token type" ∧
    ∀ d, get_current_user
        (some { type := some "refresh", sub := some "user:5", scopes := [] })
        (fun _ => none) []
      ≠ .httpError 401 d := by
  have h403 : get_current_user
      (some { type := some "refresh", sub := some "user:5", scopes := [] })
      (fun _ => none) []
        = .httpError 403 "Invalid token type" := by decide
  refine ⟨h403, ?_⟩
  intro d h
  rw [h403] at h
  simp at h

/-- C6 (amended): a codec decode failure is answered 401 "Could not
validate credentials"; a decodable payload with a parseable nonzero subject
id whose claim type is not `access` is answered 403 "Invalid token type". -/
theorem c6_auth_errors (db : Int → Option User) (req : List String) (p : Payload)
    (uid : Int) (hpi : pyInt (subSuffix p.sub "") = some uid) (hu0 : uid ≠ 0)
    (htp : p.type.getD "access" ≠ "access") :
    get_current_user none db req = .httpError 401 "Could not validate credentials" ∧
    get_current_user (some p) db req = .httpError 403 "Invalid token type" := by
  constructor
  · rfl
  · simp [get_current_user, hpi, hu0, htp]

/-- C6 witness at a refresh-typed payload with subject `"user:5"`. -/
theorem c6_witness :
    (pyInt (subSuffix (some "user:5") "") = some 5 ∧ (5 : Int) ≠ 0 ∧
     (Option.getD (some "refresh") "access" ≠ "access")) ∧
    (get_current_user none sampleDb ["user"]
        = .httpError 401 "Could not validate credentials" ∧
     get_current_user
        (some { type := some "refresh", sub := some "user:5", scopes := [] })
        sampleDb ["user"]
        = .httpError 403 "Invalid token type") :=
  ⟨⟨by decide, by decide, by decide⟩,
   c6_auth_errors sampleDb ["user"]
     { type := some "refresh", sub := some "user:5", scopes := [] }
     5 (by decide) (by decide) (by decide)⟩

/-! # Claim C8 — total error propagation -/

/-- C8 (code bug): the refresh endpoint, wrapped in `except Exception`,
answers `"Invalid refresh token"` 400 on *every* input — the
`AttributeError` of its broken principal query is swallowed there, leaving
success, the 404 and even the `"Invalid token format"` branch (guarded out
by the store cross-check, which already rejected falsy ids) unreachable —
while `get_current_user` escapes the structured taxonomy exactly when the
token decodes and either its subject suffix is not an integer literal
(uncaught `ValueError` from `int()`) or the falsy-id and token-type checks
pass (uncaught `AttributeError` from the principal query). -/
theorem c8_error_propagation (now : Int) (c : TokenCache) (t : String)
    (dec : Option Payload) (req : List String) :
    (refresh_endpoint_source now c t dec).1
        = .errorResult "Invalid refresh token" 400 ∧
    (get_current_user_source dec req = .unhandled ↔
      ∃ p, dec = some p ∧
        (pyInt (subSuffix p.sub "") = none ∨
         ∃ uid, pyInt (subSuffix p.sub "") = some uid ∧ uid ≠ 0 ∧
           p.type.getD "access" = "access")) := by
  constructor
  · cases dec with
    | none => simp [refresh_endpoint_source, verify_token]
    | some p =>
      by_cases htp : p.type = some "refresh"
      · cases hget : (get_user_id_by_token now c t).1 with
        | none => simp [refresh_endpoint_source, verify_token, htp, hget]
        | some u =>
          by_cases hu0 : u = 0
          · simp [refresh_endpoint_source, verify_token, htp, hget, hu0]
          · cases hpi : pyInt (subSuffix p.sub ":") with
            | none =>
              simp [refresh_endpoint_source, verify_token, htp, hget, hu0, hpi]
            | some sid =>
              by_cases hus : u = sid
              · have h0 : ¬ sid = 0 := fun hc => hu0 (hus.trans hc)
                simp [refresh_endpoint_source, verify_token, htp, hget, hu0,
                  hpi, hus, h0]
              · simp [refresh_endpoint_source, verify_token, htp, hget, hu0,
                  hpi, hus]
      · simp [refresh_endpoint_source, verify_token, htp]
  · cases dec with
    | none => simp [get_current_user_source]
    | some p =>
      cases hpi : pyInt (subSuffix p.sub "") with
      | none => simp [get_current_user_source, hpi]
      | some uid =>
        by_cases hu0 : uid = 0
        · simp [get_current_user_source, hpi, hu0]
        · by_cases htp : p.type.getD "access" = "access"
          · simp [get_current_user_source, hpi, hu0, htp]
          · simp [get_current_user_source, hpi, hu0, htp]

/-! # Claim C9 — error indistinguishability -/

/-- C9 (code bug): at Refresh, the decode-failure error and the store-miss
error are the identical `"Invalid refresh token"` 400 result, as claimed;
at Login, the pair of `"Incorrect username or password"` results the claim
compares is never produced at all — the user query raises an uncaught
`AttributeError` (`models.User.is_active` does not exist) before either
credential branch runs, even though both branches carry the identical
message in the dead code at auth.py:46-56. -/
theorem c9_indistinguishability (now : Int) (c : TokenCache) (t : String)
    (p : Payload) (username password : String)
    (htp : p.type = some "refresh")
    (hmiss : (get_user_id_by_token now c t).1 = none) :
    (refresh_endpoint_source now c t none).1
        = (refresh_endpoint_source now c t (some p)).1 ∧
    (refresh_endpoint_source now c t none).1
        = .errorResult "Invalid refresh token" 400 ∧
    login now c username password = none := by
  refine ⟨?_, rfl, rfl⟩
  simp [refresh_endpoint_source, verify_token, htp, hmiss]

/-- C9 witness: a refresh-typed payload and an empty store. -/
theorem c9_witness :
    ((some "refresh" : Option String) = some "refresh" ∧
     (get_user_id_by_token 0 emptyCache "t").1 = none) ∧
    ((refresh_endpoint_source 0 emptyCache "t" none).1
        = (refresh_endpoint_source 0 emptyCache "t"
            (some { type := some "refresh", sub := some "refresh:1",
                    scopes := [] })).1 ∧
     (refresh_endpoint_source 0 emptyCache "t" none).1
        = .errorResult "Invalid refresh token" 400 ∧
     login 0 emptyCache "u" "pw" = none) :=
  ⟨⟨by decide, by decide⟩,
   c9_indistinguishability 0 emptyCache "t"
     { type := some "refresh", sub := some "refresh:1", scopes := [] }
     "u" "pw" (by decide) (by decide)⟩

/-! # Claim C10 — principal id 0 can never refresh -/

/-- C10: a refresh token that is the current, unexpired store entry for
principal 0 and decodes as a refresh-typed payload is still rejected:
`verify_token` answers `None` (Python `not user_id` treats 0 as absent) and
the refresh endpoint answers the invalid-token error. -/
theorem c10_principal_zero (now exp : Int) (c : TokenCache) (t : String)
    (p : Payload) (db : Int → Option User)
    (hlk : alookup c.token_lookup t = some { user_id := 0, expires_at := exp })
    (hexp : ¬ exp < now) (htp : p.type = some "refresh") :
    (verify_token now c t (some p)).1 = .ok none ∧
    (refresh_endpoint now c t (some p) db).1
      = .errorResult "Invalid refresh token" 400 := by
  have hget : (get_user_id_by_token now c t).1 = some 0 := by
    simp [get_user_id_by_token, hlk, hexp]
  constructor
  · simp [verify_token, htp, hget]
  · simp [refresh_endpoint, verify_token, htp, hget]

/-- C10 witness: principal 0 holds the live token `"z"`. -/
theorem c10_witness :
    (alookup ({ refresh_tokens := [(0, { refresh_token := "z", expires_at := 9 })],
                token_lookup := [("z", { user_id := 0, expires_at := 9 })] } :
                  TokenCache).token_lookup "z"
        = some { user_id := 0, expires_at := 9 } ∧
     ¬ (9 : Int) < 0 ∧
     (some "refresh" : Option String) = some "refresh") ∧
    ((verify_token 0 { refresh_tokens := [(0, { refresh_token := "z", expires_at := 9 })],
                       token_lookup := [("z", { user_id := 0, expires_at := 9 })] }
        "z" (some { type := some "refresh", sub := some "refresh:0", scopes := [] })).1
        = .ok none ∧
     (refresh_endpoint 0
        { refresh_tokens := [(0, { refresh_token := "z", expires_at := 9 })],
          token_lookup := [("z", { user_id := 0, expires_at := 9 })] }
        "z" (some { type := some "refresh", sub := some "refresh:0", scopes := [] })
        sampleDb).1
        = .errorResult "Invalid refresh token" 400) :=
  ⟨⟨by decide, by decide, by decide⟩,
   c10_principal_zero 0 9
     { refresh_tokens := [(0, { refresh_token := "z", expires_at := 9 })],
       token_lookup := [("z", { user_id := 0, expires_at := 9 })] }
     "z" { type := some "refresh", sub := some "refresh:0", scopes := [] }
     sampleDb (by decide) (by decide) (by decide)⟩

end ModernWMS
